import Mathlib

/-!
Shallow embedding of the game-center lifecycle coordinator (game.ts).

Games are persisted documents in a document store; the store is modelled as
an association list from numeric document ids to game documents plus a list
of player documents.  Opaque ObjectIds are modelled as naturals drawn from a
freshness counter `nextId` carried by the store state.  JavaScript numbers
are modelled as `Int`.  Acknowledgment of each individual store write is an
environment parameter `ack : Nat → Bool` (the n-th write performed by the
operation is acknowledged iff `ack n`); this models driver-level write
outcomes, which the source checks via `res.acknowledged`/counts.

Transaction sessions: `withTransaction(cb).then(() => session.endSession())`
in the source is modelled by a `SessionLog` recording whether a session was
started and whether `endSession` ran.  A fulfilled transaction promise runs
the `.then` handler (session ended); a rejected one skips it (session left
open) and propagates the error, exactly as JavaScript promise chaining does.
-/

namespace GameCenter

/-- Lifecycle states of a game; the source stores them as the strings
"not ready", "ready", "running", "ended". -/
inductive GameState where
  | notReady
  | ready
  | running
  | ended
deriving DecidableEq, Repr

/-- Modelled from the spec: the `UserRole` union of types.ts (not in src),
`"host" | "admin" | "player"`. -/
inductive UserRole where
  | host
  | admin
  | player
deriving DecidableEq, Repr

/-- Modelled from the spec: the `PlayerRole` union of types.ts (not in src),
the roles one can join a game with, `"admin" | "player"`. -/
inductive PlayerRole where
  | admin
  | player
deriving DecidableEq, Repr

/-- The implicit TypeScript widening of a `PlayerRole` into a `UserRole`. -/
def PlayerRole.toUserRole : PlayerRole → UserRole
  | .admin => .admin
  | .player => .player

/-- Modelled from the spec: `GameSettings` of types.ts (not in src), fields
per spec section 3 (duration in seconds, times in epoch milliseconds). -/
structure GameSettings where
  name : String
  duration : Int
  startTime : Int
  endTime : Int
  ordered : Bool
  minPlayers : Int
  maxPlayers : Int
  joinMidGame : Bool
  numRequiredTasks : Int
deriving DecidableEq, Repr

/-- Modelled from the spec: `TaskSchema` of types.ts (not in src): a task
record carries an opaque unique identifier assigned at game creation plus
task content (opaque to the lifecycle coordinator, modelled as a string). -/
structure TaskSchema where
  _id : Option Nat
  content : String
deriving DecidableEq, Repr

/-- Modelled from the spec: `UserToken` claims of types.ts (not in src):
`userid`/`username` always present, `gameId`/`role` only once scoped. -/
structure UserToken where
  userid : String
  username : String
  gameId : Option Nat := none
  role : Option UserRole := none
deriving DecidableEq, Repr

/-- A signed JWT, modelled as its claims plus the signing key and expiry
(the external `jsonwebtoken` collaborator's `sign` is abstract signing). -/
structure SignedToken where
  claims : UserToken
  key : String
  expiresIn : String
deriving DecidableEq, Repr

/-- Abstract `jwt.sign`. -/
def jwtSign (claims : UserToken) (key : String) (expiresIn : String) : SignedToken :=
  { claims := claims, key := key, expiresIn := expiresIn }

/-- Modelled from the spec: the access-token symmetric key of constants.ts
(not in src); its concrete value is opaque. -/
def ACCESS_TOKEN_KEY : String := "access-token-key"

/-- Modelled from the spec: the refresh-token symmetric key of constants.ts
(not in src); its concrete value is opaque. -/
def REFRESH_TOKEN_KEY : String := "refresh-token-key"

/-- Modelled from the spec: the scheduler group name of constants.ts
(not in src); its concrete value is opaque. -/
def SCHEDULER_GROUP_NAME : String := "game-schedules"

structure AccessCredentials where
  accessToken : SignedToken
  refreshToken : SignedToken
deriving DecidableEq, Repr

/-- Function `upgradeCredentials` of game.ts: rebuilds the claims from only
`userid`/`username`, then attaches the passed game id and role, and signs
an access/refresh pair. -/
def upgradeCredentials (token : UserToken) (gameId : Nat) (role : UserRole) :
    AccessCredentials :=
  let creds : UserToken :=
    { userid := token.userid, username := token.username,
      gameId := some gameId, role := some role }
  { accessToken := jwtSign creds ACCESS_TOKEN_KEY "15min",
    refreshToken := jwtSign creds REFRESH_TOKEN_KEY "3hr" }

/-- Structure `GameSchema` of types.ts (fields exactly as inserted by createGame). -/
structure GameSchema where
  tasks : List TaskSchema
  settings : GameSettings
  state : GameState
  players : List String
  admins : List String
  host : String
deriving DecidableEq, Repr

/-- Structure `PlayerSchema` of types.ts (fields exactly as inserted by joinGame). -/
structure PlayerSchema where
  gameId : Nat
  username : String
  points : Int
  tasksSubmitted : List Nat
  done : Bool
deriving DecidableEq, Repr

/-- The document store: the `games` and `players` collections plus the
ObjectId freshness counter. -/
structure DB where
  games : List (Nat × GameSchema)
  players : List PlayerSchema
  nextId : Nat
deriving DecidableEq, Repr

/-- Lookup `findOne({_id: gid})` on a list of keyed game documents: the first
document whose id matches, if any. -/
def findGameL : List (Nat × GameSchema) → Nat → Option GameSchema
  | [], _ => none
  | p :: l, gid => if p.1 = gid then some p.2 else findGameL l gid

/-- Read `getGameColl().findOne({ _id: gameId })`. -/
def DB.findGame (db : DB) (gid : Nat) : Option GameSchema :=
  findGameL db.games gid

/-- Update `getGameColl().updateOne({ _id: gameId }, ...)`: applies the update to
the documents with the given id, leaving everything else in place. -/
def DB.updateGame (db : DB) (gid : Nat) (f : GameSchema → GameSchema) : DB :=
  { db with games := db.games.map (fun p => if p.1 = gid then (p.1, f p.2) else p) }

/-- Modelled from the spec: the configuration constants of constants.ts
(not in src): the game-count cap, the per-game admin cap, and the list of
valid admin codes. -/
structure Config where
  MAX_GAMES : Nat
  MAX_ADMINS : Nat
  ADMIN_CODES : List String

/-- The error taxonomy of spec section 7; each `assert(...)` message of the
source maps to the corresponding kind. -/
inductive Err where
  | unauthorized
  | forbidden
  | gameNotFound
  | invalidState
  | playerCapacityReached
  | adminCapacityReached
  | tooManyGames
  | alreadyMember
  | invalidAdminCode
  | gameEnded
  | missingSchedulerConfig
  | persistenceError
  | schedulerError
deriving DecidableEq, Repr

/-- Record of a transaction session's lifecycle within one operation:
whether `startSession` ran and whether `endSession` ran before return. -/
structure SessionLog where
  started : Bool
  ended : Bool
deriving DecidableEq, Repr

/-- The session log of an exit path on which no session was ever opened. -/
def noSession : SessionLog := { started := false, ended := false }

/-- Modelled from the spec: `verifyToken` of auth.ts (not in src), per spec
section 4.2.  Signature/expiry validation is abstracted away (tokens are
already-decoded claims); the check fails with `forbidden` when the decoded
`gameId` does not match the target game or the decoded role is not among
the allowed roles. -/
def verifyToken (token : UserToken) (gameId : Nat) (roles : List UserRole) :
    Except Err UserToken :=
  match token.gameId, token.role with
  | some gid, some r => if gid = gameId ∧ r ∈ roles then .ok token else .error .forbidden
  | _, _ => .error .forbidden

/-- The admin-code check of joinGame:
`code && adminCodes && adminCodes.includes(code)` (a supplied empty string
is falsy in JavaScript; the code list itself is always truthy). -/
def adminCodeOk (cfg : Config) (code : Option String) : Bool :=
  match code with
  | some c => c != "" && cfg.ADMIN_CODES.contains c
  | none => false

/-- Operator `$addToSet`: appends the element unless it is already present. -/
def addToSet (l : List String) (x : String) : List String :=
  if x ∈ l then l else l ++ [x]

/-- Step `tasks.forEach(t => t._id = new ObjectId())`: assigns consecutive fresh
ids starting at `n`; returns the updated tasks and the next fresh id. -/
def assignTaskIds : List TaskSchema → Nat → List TaskSchema × Nat
  | [], n => ([], n)
  | t :: ts, n =>
    let r := assignTaskIds ts (n + 1)
    ({ t with _id := some n } :: r.1, r.2)

structure CreateGameConfirmation where
  creds : AccessCredentials
  gameid : Nat
  taskids : List Nat
deriving DecidableEq, Repr

/-- Function `createGame` of game.ts.  `ack n` is the acknowledgment outcome of the
n-th store write of this call (here only write 0, the game insert). -/
def createGame (cfg : Config) (ack : Nat → Bool) (token : UserToken)
    (settings : GameSettings) (tasks : List TaskSchema) (db : DB) :
    Except Err CreateGameConfirmation × DB :=
  if db.games.length < cfg.MAX_GAMES then
    let decodedToken := token
    let r := assignTaskIds tasks db.nextId
    let taskids := r.1.map (fun t => t._id.getD 0)
    let endTime : Int :=
      if settings.duration ≠ 0 then settings.startTime + settings.duration else 0
    let newGame : GameSchema :=
      { tasks := r.1,
        settings := { settings with endTime := endTime },
        state := if settings.minPlayers = 0 then .ready else .notReady,
        players := [],
        admins := [],
        host := decodedToken.username }
    if ack 0 then
      let gid := r.2
      let db' : DB := { db with games := db.games ++ [(gid, newGame)], nextId := gid + 1 }
      (.ok { creds := upgradeCredentials decodedToken gid .host,
             gameid := gid, taskids := taskids }, db')
    else (.error .persistenceError, db)
  else (.error .tooManyGames, db)

/-- Function `joinGame` of game.ts.  On the player path, write 0 is the player
insert and write 1 the game roster update; on the admin path write 0 is the
roster update.  The third component records the transaction session's
lifecycle: the source runs `session.withTransaction(cb).then(() =>
session.endSession())`, so `endSession` runs only when the transaction
promise is fulfilled; a rejected (aborted) transaction skips the `.then`
handler and propagates the error with the session still open. -/
def joinGame (cfg : Config) (ack : Nat → Bool) (token : UserToken) (gameId : Nat)
    (role : PlayerRole) (code : Option String) (db : DB) :
    Except Err AccessCredentials × DB × SessionLog :=
  if role = .admin ∧ adminCodeOk cfg code = false then
    (.error .invalidAdminCode, db, noSession)
  else
    match db.findGame gameId with
    | none => (.error .gameNotFound, db, noSession)
    | some game =>
      if ¬ (token.username ≠ game.host ∧ token.username ∉ game.players ∧
            token.username ∉ game.admins) then
        (.error .alreadyMember, db, noSession)
      else if role = .player ∧ ¬ ((game.players.length : Int) < game.settings.maxPlayers) then
        (.error .playerCapacityReached, db, noSession)
      else if role = .admin ∧ ¬ (game.admins.length < cfg.MAX_ADMINS) then
        (.error .adminCapacityReached, db, noSession)
      else if role ≠ .admin ∧ game.state = .ended then
        (.error .gameEnded, db, noSession)
      else
        let body : Except Err DB :=
          match role with
          | .admin =>
            if ack 0 then
              .ok (db.updateGame gameId
                (fun g => { g with admins := addToSet g.admins token.username }))
            else .error .persistenceError
          | .player =>
            if ack 0 then
              let dbP : DB :=
                { db with players := db.players ++
                    [{ gameId := gameId, username := token.username, points := 0,
                       tasksSubmitted := [],
                       done := game.settings.numRequiredTasks = 0 }] }
              if ack 1 then
                .ok (dbP.updateGame gameId (fun g =>
                  let g1 := { g with players := addToSet g.players token.username }
                  if game.state = .notReady ∧
                      (game.players.length : Int) = game.settings.minPlayers - 1 then
                    { g1 with state := .ready }
                  else g1))
              else .error .persistenceError
            else .error .persistenceError
        match body with
        | .ok db' =>
          (.ok (upgradeCredentials token gameId role.toUserRole), db', ⟨true, true⟩)
        | .error e => (.error e, db, ⟨true, false⟩)

/-- Function `leaveGame` of game.ts: a `$pull` of the caller's username from the
`players` field only, then an assertion that exactly one document was
modified ("No player removed"). -/
def leaveGame (ack : Nat → Bool) (token : UserToken) (gameId : Nat) (db : DB) :
    Except Err Unit × DB :=
  match verifyToken token gameId [.player, .admin] with
  | .error e => (.error e, db)
  | .ok decodedToken =>
    let changed : Bool :=
      match db.findGame gameId with
      | some g => g.players.contains decodedToken.username
      | none => false
    if ack 0 ∧ changed = true then
      (.ok (), db.updateGame gameId (fun g =>
        { g with players := g.players.filter (fun u => u != decodedToken.username) }))
    else (.error .persistenceError, db)

structure UpdateGameStateConfirmation where
  startTime : Int
  endTime : Int
deriving DecidableEq, Repr

/-- Function `startGame` of game.ts.  `now` is `Date.now()`; `schedResult` is the
outcome of the external scheduler-create call (`some arn` on success,
`none` when the gateway call throws, which is surfaced to the caller). -/
def startGame (ack : Nat → Bool) (now : Int) (token : UserToken) (gameId : Nat)
    (gameFunctionArn : Option String) (stopGameEvent : Option Unit)
    (schedResult : Option String) (db : DB) :
    Except Err UpdateGameStateConfirmation × DB :=
  match verifyToken token gameId [.host, .admin] with
  | .error e => (.error e, db)
  | .ok _ =>
    match db.findGame gameId with
    | none => (.error .gameNotFound, db)
    | some game =>
      if game.state ≠ .ready then (.error .invalidState, db)
      else
        let endTime : Int :=
          if game.settings.duration = 0 then 0 else now + game.settings.duration * 1000
        if ack 0 then
          let db' := db.updateGame gameId (fun g =>
            { g with state := .running,
                     settings := { g.settings with startTime := now, endTime := endTime } })
          if game.settings.duration > 0 then
            if gameFunctionArn = none then (.error .missingSchedulerConfig, db')
            else if stopGameEvent = none then (.error .missingSchedulerConfig, db')
            else
              match schedResult with
              | none => (.error .schedulerError, db')
              | some _ => (.ok { startTime := now, endTime := endTime }, db')
          else (.ok { startTime := now, endTime := endTime }, db')
        else (.error .persistenceError, db)

/-- Possible outcomes of the external scheduler-delete (timer cancellation)
call: success, a ResourceNotFoundException, or any other failure. -/
inductive CancelOutcome where
  | success
  | notFound
  | otherError
deriving DecidableEq, Repr

/-- One invocation of the scheduler gateway's delete operation. -/
structure SchedCall where
  name : String
  group : String
deriving DecidableEq, Repr

/-- Function `stopGame` of game.ts.  `cancel` is the outcome of the timer
cancellation; the whole cancellation block is inside `try/catch`, so every
outcome is absorbed.  The third component is the list of scheduler-delete
invocations performed. -/
def stopGame (ack : Nat → Bool) (now : Int) (_cancel : CancelOutcome)
    (token : UserToken) (gameId : Nat) (fromSchedule : Bool) (db : DB) :
    Except Err UpdateGameStateConfirmation × DB × List SchedCall :=
  match verifyToken token gameId [.host, .admin] with
  | .error e => (.error e, db, [])
  | .ok _ =>
    match db.findGame gameId with
    | none => (.error .gameNotFound, db, [])
    | some game =>
      if game.state ≠ .running then (.error .invalidState, db, [])
      else if ack 0 then
        let db' := db.updateGame gameId (fun g =>
          { g with state := .ended, settings := { g.settings with endTime := now } })
        let calls : List SchedCall :=
          if fromSchedule then []
          else [{ name := "end-game-" ++ toString gameId, group := SCHEDULER_GROUP_NAME }]
        (.ok { startTime := game.settings.startTime, endTime := now }, db', calls)
      else (.error .persistenceError, db, [])

/-- Function `restartGame` of game.ts: host-or-admin authorization, requires the
game to have ended, then delegates to `createGame` with the stored game's
settings and tasks and the same token. -/
def restartGame (cfg : Config) (ack : Nat → Bool) (token : UserToken) (gameId : Nat)
    (db : DB) : Except Err CreateGameConfirmation × DB :=
  match verifyToken token gameId [.host, .admin] with
  | .error e => (.error e, db)
  | .ok _ =>
    match db.findGame gameId with
    | none => (.error .gameNotFound, db)
    | some game =>
      if game.state ≠ .ended then (.error .invalidState, db)
      else createGame cfg ack token game.settings game.tasks db

/-- Function `deleteGame` of game.ts.  Write 0 is the game `deleteOne`, write 1 the
cascading `deleteMany` on players.  Session handling is the same
`.then(() => session.endSession())` pattern as joinGame. -/
def deleteGame (ack : Nat → Bool) (token : UserToken) (gameId : Nat) (db : DB) :
    Except Err GameSchema × DB × SessionLog :=
  match verifyToken token gameId [.host, .admin] with
  | .error e => (.error e, db, noSession)
  | .ok _ =>
    match db.findGame gameId with
    | none => (.error .gameNotFound, db, noSession)
    | some game =>
      if game.state = .running then (.error .invalidState, db, noSession)
      else
        let body : Except Err DB :=
          if ack 0 then
            let db1 : DB := { db with games := db.games.filter (fun p => p.1 != gameId) }
            if ack 1 then
              .ok { db1 with players := db1.players.filter (fun p => p.gameId != gameId) }
            else .error .persistenceError
          else .error .persistenceError
        match body with
        | .ok db' => (.ok game, db', ⟨true, true⟩)
        | .error e => (.error e, db, ⟨true, false⟩)

/-! ### Store lemmas -/

/-- Looking a game up after an id-targeted update: the looked-up document is
transformed exactly when the looked-up id is the updated id. -/
theorem findGameL_map_update (l : List (Nat × GameSchema)) (gid gid' : Nat)
    (f : GameSchema → GameSchema) :
    findGameL (l.map (fun p => if p.1 = gid then (p.1, f p.2) else p)) gid' =
      if gid' = gid then (findGameL l gid').map f else findGameL l gid' := by
  induction l with
  | nil => simp only [List.map_nil, findGameL]; split <;> rfl
  | cons p l ih =>
    by_cases h1 : p.1 = gid <;> by_cases h2 : p.1 = gid'
    · have hg : gid' = gid := h2 ▸ h1
      simp [findGameL, h1, h2, hg]
    · have hg : ¬ gid' = gid := fun h => h2 (h ▸ h1)
      have hg' : ¬ gid = gid' := fun h => hg h.symm
      simp [findGameL, h1, h2, hg, hg', ih]
    · have hg : ¬ gid' = gid := fun h => h1 (h ▸ h2)
      simp [findGameL, h1, h2, hg, ih]
    · simp [findGameL, h1, h2, ih]

theorem DB.findGame_updateGame (db : DB) (gid gid' : Nat) (f : GameSchema → GameSchema) :
    (db.updateGame gid f).findGame gid' =
      if gid' = gid then (db.findGame gid').map f else db.findGame gid' := by
  simp [DB.findGame, DB.updateGame, findGameL_map_update]

theorem findGameL_append (l₁ l₂ : List (Nat × GameSchema)) (gid : Nat) :
    findGameL (l₁ ++ l₂) gid =
      match findGameL l₁ gid with
      | some g => some g
      | none => findGameL l₂ gid := by
  induction l₁ with
  | nil => simp [findGameL]
  | cons p l ih =>
    by_cases h : p.1 = gid <;> simp [findGameL, h, ih]

/-- The freshness counter after assigning task ids. -/
theorem assignTaskIds_snd (ts : List TaskSchema) (n : Nat) :
    (assignTaskIds ts n).2 = n + ts.length := by
  induction ts generalizing n with
  | nil => simp [assignTaskIds]
  | cons t ts ih => simp [assignTaskIds, ih]; omega

/-- Assigning fresh ids leaves the task content untouched. -/
theorem assignTaskIds_map_content (ts : List TaskSchema) (n : Nat) :
    (assignTaskIds ts n).1.map TaskSchema.content = ts.map TaskSchema.content := by
  induction ts generalizing n with
  | nil => rfl
  | cons t ts ih => simp [assignTaskIds, ih]

/-! ### Concrete fixtures used by witnesses and counterexamples -/

def cfg0 : Config := { MAX_GAMES := 100, MAX_ADMINS := 10, ADMIN_CODES := ["secret"] }

/-- Environment in which every store write is acknowledged. -/
def ackOk : Nat → Bool := fun _ => true

/-- Environment in which every store write fails acknowledgment. -/
def ackFail : Nat → Bool := fun _ => false

def settings0 : GameSettings :=
  { name := "g", duration := 0, startTime := 0, endTime := 0, ordered := false,
    minPlayers := 2, maxPlayers := 4, joinMidGame := false, numRequiredTasks := 1 }

def game0 : GameSchema :=
  { tasks := [], settings := settings0, state := .notReady, players := [],
    admins := [], host := "hostA" }

def db_c1 : DB := { games := [(0, game0)], players := [], nextId := 5 }

def tok_alice : UserToken := { userid := "u1", username := "alice" }

def game_ended : GameSchema :=
  { tasks := [], settings := settings0, state := .ended, players := ["bob"],
    admins := [], host := "hostA" }

def db_ended : DB := { games := [(1, game_ended)], players := [], nextId := 7 }

/-- A host credential scoped to game 1. -/
def tok_host1 : UserToken :=
  { userid := "u0", username := "hostA", gameId := some 1, role := some .host }

/-! ### Claims -/

/-- Claim C1: the spec states that joinGame and deleteGame always end their
transaction session before returning, on every exit path including aborts.
The source chains `session.withTransaction(cb).then(() => session.endSession())`:
the `.then` handler runs only when the transaction promise is fulfilled, so
on an abort (here: an unacknowledged in-transaction write) the error
propagates with the session still open.  This theorem evaluates both
operations at such failing inputs: each returns an error with
`started = true` and `ended = false`. -/
theorem C1_session_left_open_on_abort :
    joinGame cfg0 ackFail tok_alice 0 .player none db_c1 =
      (.error .persistenceError, db_c1, { started := true, ended := false }) ∧
    deleteGame ackFail tok_host1 1 db_ended =
      (.error .persistenceError, db_ended, { started := true, ended := false }) := by
  exact ⟨rfl, rfl⟩

/-- Claim C9: upgradeCredentials depends only on the input identity's
`userid` and `username`; any ambient `gameId`/`role` claims carried by the
input are discarded, and the output's claims are exactly the preserved
identity plus the explicitly passed game id and role, identically in both
the access and the refresh credential. -/
theorem C9_upgradeCredentials_no_ambient_leak (t1 t2 : UserToken) (gameId : Nat)
    (role : UserRole) (hu : t1.userid = t2.userid) (hn : t1.username = t2.username) :
    upgradeCredentials t1 gameId role = upgradeCredentials t2 gameId role ∧
    (upgradeCredentials t1 gameId role).accessToken.claims =
      { userid := t1.userid, username := t1.username,
        gameId := some gameId, role := some role } ∧
    (upgradeCredentials t1 gameId role).refreshToken.claims =
      { userid := t1.userid, username := t1.username,
        gameId := some gameId, role := some role } := by
  refine ⟨?_, rfl, rfl⟩
  simp [upgradeCredentials, hu, hn]

theorem C9_witness :
    upgradeCredentials
        { userid := "u1", username := "alice", gameId := some 3, role := some .player }
        7 .admin =
      upgradeCredentials
        { userid := "u1", username := "alice", gameId := some 9, role := some .host }
        7 .admin :=
  (C9_upgradeCredentials_no_ambient_leak _ _ 7 .admin rfl rfl).1

/-- Claim C8: every successful createGame inserts a game whose initial
state is "ready" exactly when `settings.minPlayers == 0`, and "not ready"
otherwise. -/
theorem C8_initial_state (cfg : Config) (ack : Nat → Bool) (token : UserToken)
    (settings : GameSettings) (tasks : List TaskSchema) (db : DB)
    (conf : CreateGameConfirmation) (db' : DB)
    (hrun : createGame cfg ack token settings tasks db = (.ok conf, db')) :
    ∃ g : GameSchema, db'.games = db.games ++ [(conf.gameid, g)] ∧
      g.state = (if settings.minPlayers = 0 then GameState.ready else GameState.notReady) ∧
      (g.state = .ready ↔ settings.minPlayers = 0) := by
  simp only [createGame] at hrun
  split at hrun
  · split at hrun
    · simp only [Prod.mk.injEq, Except.ok.injEq] at hrun
      obtain ⟨hconf, hdb⟩ := hrun
      subst hconf
      subst hdb
      refine ⟨_, rfl, rfl, ?_⟩
      by_cases h : settings.minPlayers = 0 <;> simp [h]
    · simp at hrun
  · simp at hrun

def db_empty : DB := { games := [], players := [], nextId := 0 }

theorem C8_witness :
    ∃ g : GameSchema,
      (createGame cfg0 ackOk tok_alice settings0 [] db_empty).2.games =
        db_empty.games ++ [(0, g)] ∧
      g.state = (if settings0.minPlayers = 0 then GameState.ready else GameState.notReady) ∧
      (g.state = .ready ↔ settings0.minPlayers = 0) := by
  have h := C8_initial_state cfg0 ackOk tok_alice settings0 [] db_empty
    { creds := upgradeCredentials tok_alice 0 .host, gameid := 0, taskids := [] }
    ((createGame cfg0 ackOk tok_alice settings0 [] db_empty).2) rfl
  simpa using h

/-- Claim C2: for an authorized caller and an existing game, startGame is
legal only from "ready", stopGame only from "running", restartGame only
from "ended", and deleteGame is illegal from "running"; every illegal
invocation returns an InvalidState failure and leaves the store (game and
player documents) unchanged. -/
theorem C2_lifecycle_guards (cfg : Config) (ack : Nat → Bool) (now : Int)
    (cancel : CancelOutcome) (tok : UserToken) (gid : Nat) (db : DB) (game : GameSchema)
    (arn : Option String) (ev : Option Unit) (sr : Option String) (fs : Bool)
    (hauth : verifyToken tok gid [.host, .admin] = .ok tok)
    (hg : db.findGame gid = some game) :
    (game.state ≠ .ready →
      startGame ack now tok gid arn ev sr db = (.error .invalidState, db)) ∧
    (game.state ≠ .running →
      stopGame ack now cancel tok gid fs db = (.error .invalidState, db, [])) ∧
    (game.state = .running →
      deleteGame ack tok gid db = (.error .invalidState, db, noSession)) ∧
    (game.state ≠ .ended →
      restartGame cfg ack tok gid db = (.error .invalidState, db)) := by
  refine ⟨fun h => ?_, fun h => ?_, fun h => ?_, fun h => ?_⟩ <;>
    simp [startGame, stopGame, deleteGame, restartGame, hauth, hg, h]

theorem C2_witness :
    startGame ackOk 5 tok_host1 1 none none none db_ended = (.error .invalidState, db_ended) ∧
    stopGame ackOk 5 .success tok_host1 1 false db_ended = (.error .invalidState, db_ended, []) := by
  have h := C2_lifecycle_guards cfg0 ackOk 5 .success tok_host1 1 db_ended game_ended
    none none none false rfl rfl
  exact ⟨h.1 (by decide), h.2.1 (by decide)⟩

def game_running : GameSchema :=
  { tasks := [], settings := { settings0 with startTime := 3 }, state := .running,
    players := ["bob", "carol"], admins := [], host := "hostA" }

def db_running : DB := { games := [(2, game_running)], players := [], nextId := 9 }

/-- A host credential scoped to game 2. -/
def tok_host2 : UserToken :=
  { userid := "u0", username := "hostA", gameId := some 2, role := some .host }

/-- Claim C7: stopGame invoked with the fromSchedule marker never calls the
scheduler gateway's delete; and without the marker, the cancellation
outcome (not-found or any other failure) does not change the result: the
operation still succeeds with the game's start time and the stop time,
after the persisted state has been set to "ended". -/
theorem C7_stop_cancellation_benign (ack : Nat → Bool) (now : Int)
    (c c' : CancelOutcome) (tok : UserToken) (gid : Nat) (db : DB) (game : GameSchema)
    (hauth : verifyToken tok gid [.host, .admin] = .ok tok)
    (hg : db.findGame gid = some game)
    (hrunning : game.state = .running) (hack : ack 0 = true) :
    (stopGame ack now c tok gid true db).2.2 = [] ∧
    stopGame ack now c tok gid false db = stopGame ack now c' tok gid false db ∧
    (stopGame ack now c tok gid false db).1 =
      .ok { startTime := game.settings.startTime, endTime := now } ∧
    ((stopGame ack now c tok gid false db).2.1).findGame gid =
      some { game with state := .ended,
                       settings := { game.settings with endTime := now } } := by
  refine ⟨?_, rfl, ?_, ?_⟩ <;>
    simp [stopGame, hauth, hg, hrunning, hack, DB.findGame_updateGame]

theorem C7_witness :
    (stopGame ackOk 11 .otherError tok_host2 2 true db_running).2.2 = [] ∧
    stopGame ackOk 11 .otherError tok_host2 2 false db_running =
      stopGame ackOk 11 .notFound tok_host2 2 false db_running ∧
    (stopGame ackOk 11 .otherError tok_host2 2 false db_running).1 =
      .ok { startTime := 3, endTime := 11 } := by
  have h := C7_stop_cancellation_benign ackOk 11 .otherError .notFound tok_host2 2
    db_running game_running rfl rfl rfl rfl
  exact ⟨h.1, h.2.1, h.2.2.1⟩

/-- Claim C3: a successful player join sets the game's state to "ready"
exactly when the fetched game was "not ready" with a roster of exactly
`minPlayers - 1` players (the same roster update carries the `$set`); every
other successful join — any admin join, or a player join not meeting that
condition — leaves the state field unchanged. -/
theorem C3_join_ready_transition (cfg : Config) (ack : Nat → Bool) (tok : UserToken)
    (gid : Nat) (code : Option String) (db : DB) (game : GameSchema)
    (hg : db.findGame gid = some game) :
    (∀ creds db' log, joinGame cfg ack tok gid .player code db = (.ok creds, db', log) →
      ∃ game', db'.findGame gid = some game' ∧
        game'.state =
          (if game.state = .notReady ∧
              (game.players.length : Int) = game.settings.minPlayers - 1
           then .ready else game.state)) ∧
    (∀ creds db' log, joinGame cfg ack tok gid .admin code db = (.ok creds, db', log) →
      ∃ game', db'.findGame gid = some game' ∧ game'.state = game.state) := by
  constructor
  · intro creds db' log h
    simp only [joinGame, hg] at h
    split at h
    · exact absurd (congrArg Prod.fst h) (by simp)
    · split at h
      · exact absurd (congrArg Prod.fst h) (by simp)
      · split at h
        · exact absurd (congrArg Prod.fst h) (by simp)
        · split at h
          · exact absurd (congrArg Prod.fst h) (by simp)
          · split at h
            · exact absurd (congrArg Prod.fst h) (by simp)
            · split at h
              · rename_i dbq heq
                split at heq
                · split at heq
                  · simp only [Except.ok.injEq] at heq
                    subst heq
                    simp only [Prod.mk.injEq, Except.ok.injEq] at h
                    obtain ⟨-, hdb, -⟩ := h
                    subst hdb
                    rw [DB.findGame_updateGame]
                    simp only [if_pos rfl]
                    have hfind :
                        (DB.findGame { db with players := db.players ++
                            [{ gameId := gid, username := tok.username, points := 0,
                               tasksSubmitted := [],
                               done := game.settings.numRequiredTasks = 0 }] } gid) =
                          some game := hg
                    rw [hfind]
                    by_cases hc : game.state = .notReady ∧
                        (game.players.length : Int) = game.settings.minPlayers - 1
                    · exact ⟨_, rfl, by simp [hc]⟩
                    · exact ⟨_, rfl, by simp [hc]⟩
                  · exact absurd heq (by simp)
                · exact absurd heq (by simp)
              · exact absurd (congrArg Prod.fst h) (by simp)
  · intro creds db' log h
    simp only [joinGame, hg] at h
    split at h
    · exact absurd (congrArg Prod.fst h) (by simp)
    · split at h
      · exact absurd (congrArg Prod.fst h) (by simp)
      · split at h
        · exact absurd (congrArg Prod.fst h) (by simp)
        · split at h
          · exact absurd (congrArg Prod.fst h) (by simp)
          · split at h
            · exact absurd (congrArg Prod.fst h) (by simp)
            · split at h
              · rename_i dbq heq
                split at heq
                · simp only [Except.ok.injEq] at heq
                  subst heq
                  simp only [Prod.mk.injEq, Except.ok.injEq] at h
                  obtain ⟨-, hdb, -⟩ := h
                  subst hdb
                  rw [DB.findGame_updateGame]
                  simp only [if_pos rfl, hg]
                  exact ⟨_, rfl, rfl⟩
                · exact absurd heq (by simp)
              · exact absurd (congrArg Prod.fst h) (by simp)

/-- Looking up a game reads only the games collection. -/
theorem findGame_mk (gs : List (Nat × GameSchema)) (ps : List PlayerSchema)
    (n : Nat) (gid : Nat) :
    DB.findGame { games := gs, players := ps, nextId := n } gid = findGameL gs gid := rfl

/-- For every game visible in the store, the roster respects the per-game
player capacity. -/
def capInv (db : DB) : Prop :=
  ∀ gid game, db.findGame gid = some game →
    (game.players.length : Int) ≤ game.settings.maxPlayers

/-- Every exit of joinGame — error, abort, or commit — preserves the
player-capacity invariant. -/
theorem joinGame_preserves_capInv (cfg : Config) (ack : Nat → Bool) (tok : UserToken)
    (gid : Nat) (role : PlayerRole) (code : Option String) (db : DB)
    (h : capInv db) : capInv (joinGame cfg ack tok gid role code db).2.1 := by
  unfold joinGame
  split
  · exact h
  cases hg : db.findGame gid with
  | none => exact h
  | some game =>
    dsimp only
    split
    · exact h
    split
    · exact h
    split
    · exact h
    split
    · exact h
    rename_i hmem hcap hadm hend
    rw [not_not] at hmem
    cases role with
    | admin =>
      by_cases ha : ack 0 = true
      · simp only [ha, if_true]
        intro gid' g' hfind
        rw [DB.findGame_updateGame] at hfind
        by_cases hq : gid' = gid
        · rw [if_pos hq, hq, hg] at hfind
          simp only [Option.map_some'] at hfind
          cases hfind
          simpa using h gid game hg
        · rw [if_neg hq] at hfind
          exact h gid' g' hfind
      · simp only [ha, if_false]
        exact h
    | player =>
      have hlt : (game.players.length : Int) < game.settings.maxPlayers := by
        push_neg at hcap
        exact hcap rfl
      by_cases ha : ack 0 = true
      · by_cases ha1 : ack 1 = true
        · simp only [ha, ha1, if_true]
          intro gid' g' hfind
          rw [DB.findGame_updateGame, findGame_mk] at hfind
          by_cases hq : gid' = gid
          · rw [if_pos hq, hq] at hfind
            have hg' : findGameL db.games gid = some game := hg
            rw [hg'] at hfind
            simp only [Option.map_some'] at hfind
            cases hfind
            have hnotin : tok.username ∉ game.players := hmem.2.1
            have hlen : (addToSet game.players tok.username).length =
                game.players.length + 1 := by
              simp [addToSet, hnotin]
            split <;> simp only [hlen] <;> push_cast <;> omega
          · rw [if_neg hq] at hfind
            exact h gid' g' hfind
        · simp only [ha, ha1, if_true, if_false]
          exact h
      · simp only [ha, if_false]
        exact h

/-- One joinGame request: its configuration, write-acknowledgment
environment, caller token, target game, role and admin code. -/
structure JoinReq where
  cfg : Config
  ack : Nat → Bool
  tok : UserToken
  gid : Nat
  role : PlayerRole
  code : Option String

/-- A finite sequence of joinGame operations threaded through the store. -/
def runJoins : List JoinReq → DB → DB
  | [], db => db
  | r :: rs, db => runJoins rs (joinGame r.cfg r.ack r.tok r.gid r.role r.code db).2.1

/-- Claim C4: if every game's roster is within its `maxPlayers` capacity,
then after any finite sequence of joinGame operations it still is; and a
player join against a game whose roster is already at or above capacity
always fails without touching the store — with the specific
PlayerCapacityReached error whenever the caller is not already in the
game. -/
theorem C4_capacity_invariant (reqs : List JoinReq) (db : DB) (h : capInv db) :
    capInv (runJoins reqs db) ∧
    (∀ cfg ack tok gid code game, db.findGame gid = some game →
      game.settings.maxPlayers ≤ (game.players.length : Int) →
      (∃ e, joinGame cfg ack tok gid .player code db = (.error e, db, noSession)) ∧
      (tok.username ≠ game.host ∧ tok.username ∉ game.players ∧
          tok.username ∉ game.admins →
        joinGame cfg ack tok gid .player code db =
          (.error .playerCapacityReached, db, noSession))) := by
  constructor
  · induction reqs generalizing db with
    | nil => exact h
    | cons r rs ih =>
      exact ih _ (joinGame_preserves_capInv r.cfg r.ack r.tok r.gid r.role r.code db h)
  · intro cfg ack tok gid code game hg hfull
    have hnotlt : ¬ ((game.players.length : Int) < game.settings.maxPlayers) :=
      not_lt.mpr hfull
    constructor
    · by_cases hmem : tok.username ≠ game.host ∧ tok.username ∉ game.players ∧
          tok.username ∉ game.admins
      · exact ⟨.playerCapacityReached, by simp [joinGame, hg, hmem, hnotlt]⟩
      · exact ⟨.alreadyMember, by simp [joinGame, hg, hmem]⟩
    · intro hmem
      simp [joinGame, hg, hmem, hnotlt]

def game_full : GameSchema :=
  { tasks := [], settings := { settings0 with maxPlayers := 2 }, state := .notReady,
    players := ["a", "b"], admins := [], host := "hostA" }

def db_c4 : DB := { games := [(4, game_full)], players := [], nextId := 5 }

theorem C4_witness :
    capInv (runJoins [⟨cfg0, ackOk, tok_alice, 4, .player, none⟩] db_c4) ∧
    joinGame cfg0 ackOk tok_alice 4 .player none db_c4 =
      (.error .playerCapacityReached, db_c4, noSession) := by
  have hcap : capInv db_c4 := by
    intro gid game hfind
    simp only [db_c4, DB.findGame, findGameL] at hfind
    split at hfind
    · cases hfind
      decide
    · cases hfind
  have h := C4_capacity_invariant [⟨cfg0, ackOk, tok_alice, 4, .player, none⟩] db_c4 hcap
  refine ⟨h.1, ?_⟩
  exact (h.2 cfg0 ackOk tok_alice 4 none game_full rfl (by decide)).2 (by decide)

def game_c3 : GameSchema :=
  { tasks := [], settings := settings0, state := .notReady, players := ["bob"],
    admins := [], host := "hostA" }

def db_c3 : DB := { games := [(3, game_c3)], players := [], nextId := 4 }

theorem C3_witness :
    ∃ game', ((joinGame cfg0 ackOk tok_alice 3 .player none db_c3).2.1).findGame 3 =
        some game' ∧ game'.state = .ready := by
  have h := (C3_join_ready_transition cfg0 ackOk tok_alice 3 none db_c3 game_c3 rfl).1
    (upgradeCredentials tok_alice 3 .player)
    ((joinGame cfg0 ackOk tok_alice 3 .player none db_c3).2.1)
    { started := true, ended := true } rfl
  have hc1 : game_c3.state = GameState.notReady := rfl
  have hc2 : ((game_c3.players.length : Int)) = game_c3.settings.minPlayers - 1 := by
    decide
  simpa [hc1, hc2] using h

def game_c5 : GameSchema :=
  { tasks := [], settings := settings0, state := .running, players := ["bob"],
    admins := ["alice"], host := "hostA" }

def db_c5 : DB := { games := [(6, game_c5)], players := [], nextId := 7 }

/-- An admin credential scoped to game 6, for a user who is in the game's
admins roster. -/
def tok_alice_admin6 : UserToken :=
  { userid := "u1", username := "alice", gameId := some 6, role := some .admin }

/-- Claim C5 counterexample: the claim says every caller passing the
player-or-admin authorization — in particular an admin — has their
username removed from the game's roster (players and admins).  The source
only `$pull`s from the `players` field, so an authorized admin whose
username is in `admins` but not `players` gets a PersistenceError ("No
player removed") and stays in the roster: here alice, an admin of game 6,
calls leaveGame; the call fails and alice is still in the admins set. -/
theorem C5_counterexample :
    leaveGame ackOk tok_alice_admin6 6 db_c5 = (.error .persistenceError, db_c5) ∧
    ((db_c5.findGame 6).map GameSchema.admins) = some ["alice"] :=
  ⟨rfl, rfl⟩

/-- Claim C5 (amended): for every caller passing the player-or-admin
authorization, leaveGame removes the username from the game's players list
only (the admins list is never modified): when the username is in the
players list the call succeeds and the updated game differs from the old
one exactly by filtering the username out of `players`; otherwise — in
particular for any admin who is not also listed as a player — no document
is modified and the call fails with PersistenceError, leaving the store
unchanged. -/
theorem C5_leave_removes_players_only (ack : Nat → Bool) (tok : UserToken) (gid : Nat)
    (db : DB) (game : GameSchema) (hack : ack 0 = true)
    (hauth : verifyToken tok gid [.player, .admin] = .ok tok)
    (hg : db.findGame gid = some game) :
    (tok.username ∈ game.players →
      leaveGame ack tok gid db =
        (.ok (), db.updateGame gid (fun g =>
          { g with players := g.players.filter (fun u => u != tok.username) })) ∧
      (db.updateGame gid (fun g =>
          { g with players := g.players.filter (fun u => u != tok.username) })).findGame
          gid =
        some { game with players := game.players.filter (fun u => u != tok.username) }) ∧
    (tok.username ∉ game.players →
      leaveGame ack tok gid db = (.error .persistenceError, db)) := by
  constructor
  · intro hmem
    constructor
    · simp [leaveGame, hauth, hg, hack, hmem]
    · rw [DB.findGame_updateGame, if_pos rfl, hg]
      rfl
  · intro hmem
    simp [leaveGame, hauth, hg, hack, hmem]

def game_c5b : GameSchema :=
  { tasks := [], settings := settings0, state := .running, players := ["bob", "carl"],
    admins := [], host := "hostA" }

def db_c5b : DB := { games := [(8, game_c5b)], players := [], nextId := 9 }

def tok_bob_player8 : UserToken :=
  { userid := "u3", username := "bob", gameId := some 8, role := some .player }

theorem C5_witness :
    leaveGame ackOk tok_bob_player8 8 db_c5b =
      (.ok (), db_c5b.updateGame 8 (fun g =>
        { g with players := g.players.filter (fun u => u != "bob") })) ∧
    (db_c5b.updateGame 8 (fun g =>
        { g with players := g.players.filter (fun u => u != "bob") })).findGame 8 =
      some { game_c5b with players := ["carl"] } := by
  have h := (C5_leave_removes_players_only ackOk tok_bob_player8 8 db_c5b game_c5b
    rfl rfl rfl).1 (by decide)
  exact ⟨h.1, h.2⟩

/-- A task record with its identifier erased, for comparisons up to the
freshly assigned ids. -/
def TaskSchema.eraseId (t : TaskSchema) : TaskSchema := { t with _id := none }

/-- Game settings with the two timestamp fields normalized, for the
spec's "settings minus timestamps" comparison. -/
def GameSettings.eraseTimes (s : GameSettings) : GameSettings :=
  { s with startTime := 0, endTime := 0 }

/-- Assigning fresh ids changes nothing except the task identifiers. -/
theorem assignTaskIds_map_eraseId (ts : List TaskSchema) (n : Nat) :
    (assignTaskIds ts n).1.map TaskSchema.eraseId = ts.map TaskSchema.eraseId := by
  induction ts generalizing n with
  | nil => rfl
  | cons t ts ih => simp [assignTaskIds, TaskSchema.eraseId, ih]

def task5 : TaskSchema := { _id := some 5, content := "photo hunt" }

def game_c6 : GameSchema :=
  { tasks := [task5], settings := settings0, state := .ended, players := [],
    admins := [], host := "hostA" }

def db_c6 : DB := { games := [(0, game_c6)], players := [], nextId := 10 }

def tok_host_c6 : UserToken :=
  { userid := "u0", username := "hostA", gameId := some 0, role := some .host }

/-- Claim C6 counterexample: the claim says the new game's tasks equal the
original's.  createGame (to which restartGame delegates) reassigns a fresh
ObjectId to every task, so the new game's task list differs from the
original's in the `_id` fields: restarting the ended game 0, whose only
task has id 5, creates game 11 whose only task has the fresh id 10. -/
theorem C6_counterexample :
    (restartGame cfg0 ackOk tok_host_c6 0 db_c6).1 =
      .ok { creds := upgradeCredentials tok_host_c6 11 .host, gameid := 11,
            taskids := [10] } ∧
    ((restartGame cfg0 ackOk tok_host_c6 0 db_c6).2.findGame 11).map GameSchema.tasks =
      some [{ _id := some 10, content := "photo hunt" }] ∧
    game_c6.tasks = [{ _id := some 5, content := "photo hunt" }] ∧
    ((restartGame cfg0 ackOk tok_host_c6 0 db_c6).2.findGame 11).map GameSchema.tasks ≠
      some game_c6.tasks := by
  refine ⟨rfl, rfl, rfl, ?_⟩
  intro hcontra
  rw [show ((restartGame cfg0 ackOk tok_host_c6 0 db_c6).2.findGame 11).map
      GameSchema.tasks = some [({ _id := some 10, content := "photo hunt" } :
        TaskSchema)] from rfl] at hcontra
  simp [game_c6, task5] at hcontra

/-- Claim C6 (amended): a successful restartGame requires the original
game to be ended, creates a brand-new game whose settings minus the
timestamp fields equal the original's and whose tasks equal the original's
up to the freshly assigned task identifiers, and leaves the original
game's persisted document unchanged. -/
theorem C6_restart_reuses_settings_and_tasks (cfg : Config) (ack : Nat → Bool)
    (tok : UserToken) (gid : Nat) (db : DB) (game : GameSchema)
    (conf : CreateGameConfirmation) (db' : DB)
    (hg : db.findGame gid = some game)
    (hrun : restartGame cfg ack tok gid db = (.ok conf, db')) :
    game.state = .ended ∧
    db'.findGame gid = some game ∧
    ∃ newGame, db'.games = db.games ++ [(conf.gameid, newGame)] ∧
      newGame.settings.eraseTimes = game.settings.eraseTimes ∧
      newGame.tasks.map TaskSchema.eraseId = game.tasks.map TaskSchema.eraseId := by
  simp only [restartGame, hg] at hrun
  split at hrun
  · exact absurd (congrArg Prod.fst hrun) (by simp)
  split at hrun
  · exact absurd (congrArg Prod.fst hrun) (by simp)
  rename_i hstate
  rw [not_not] at hstate
  refine ⟨hstate, ?_⟩
  simp only [createGame] at hrun
  split at hrun
  · split at hrun
    · simp only [Prod.mk.injEq, Except.ok.injEq] at hrun
      obtain ⟨hconf, hdb⟩ := hrun
      subst hconf
      subst hdb
      constructor
      · show findGameL (db.games ++ _) gid = some game
        rw [findGameL_append]
        have hg' : findGameL db.games gid = some game := hg
        rw [hg']
      · refine ⟨_, rfl, rfl, ?_⟩
        exact assignTaskIds_map_eraseId game.tasks db.nextId
    · exact absurd (congrArg Prod.fst hrun) (by simp)
  · exact absurd (congrArg Prod.fst hrun) (by simp)

theorem C6_witness :
    game_c6.state = .ended ∧
    (restartGame cfg0 ackOk tok_host_c6 0 db_c6).2.findGame 0 = some game_c6 ∧
    ∃ newGame, (restartGame cfg0 ackOk tok_host_c6 0 db_c6).2.games =
        db_c6.games ++ [(11, newGame)] ∧
      newGame.settings.eraseTimes = game_c6.settings.eraseTimes ∧
      newGame.tasks.map TaskSchema.eraseId = game_c6.tasks.map TaskSchema.eraseId := by
  have h := C6_restart_reuses_settings_and_tasks cfg0 ackOk tok_host_c6 0 db_c6 game_c6
    { creds := upgradeCredentials tok_host_c6 11 .host, gameid := 11, taskids := [10] }
    ((restartGame cfg0 ackOk tok_host_c6 0 db_c6).2) rfl rfl
  simpa using h

/-- Claim C10: every successful restartGame creates its new game with
`host` equal to the username carried by the presented credential (not the
original game's host field), and returns credentials whose claims are
host-scoped to the new game for that caller. -/
theorem C10_restart_host_is_caller (cfg : Config) (ack : Nat → Bool) (tok : UserToken)
    (gid : Nat) (db : DB) (conf : CreateGameConfirmation) (db' : DB)
    (hrun : restartGame cfg ack tok gid db = (.ok conf, db')) :
    (∃ newGame, db'.games = db.games ++ [(conf.gameid, newGame)] ∧
      newGame.host = tok.username) ∧
    conf.creds = upgradeCredentials tok conf.gameid .host ∧
    conf.creds.accessToken.claims =
      { userid := tok.userid, username := tok.username,
        gameId := some conf.gameid, role := some .host } := by
  simp only [restartGame] at hrun
  split at hrun
  · exact absurd (congrArg Prod.fst hrun) (by simp)
  split at hrun
  · exact absurd (congrArg Prod.fst hrun) (by simp)
  split at hrun
  · exact absurd (congrArg Prod.fst hrun) (by simp)
  simp only [createGame] at hrun
  split at hrun
  · split at hrun
    · simp only [Prod.mk.injEq, Except.ok.injEq] at hrun
      obtain ⟨hconf, hdb⟩ := hrun
      subst hconf
      subst hdb
      exact ⟨⟨_, rfl, rfl⟩, rfl, rfl⟩
    · exact absurd (congrArg Prod.fst hrun) (by simp)
  · exact absurd (congrArg Prod.fst hrun) (by simp)

/-- An admin credential scoped to game 1, for a caller who is not game 1's
host. -/
def tok_bea_admin1 : UserToken :=
  { userid := "u2", username := "bea", gameId := some 1, role := some .admin }

theorem C10_witness :
    (∃ newGame, (restartGame cfg0 ackOk tok_bea_admin1 1 db_ended).2.games =
        db_ended.games ++ [(7, newGame)] ∧
      newGame.host = "bea" ∧ newGame.host ≠ game_ended.host) ∧
    (restartGame cfg0 ackOk tok_bea_admin1 1 db_ended).1 =
      .ok { creds := upgradeCredentials tok_bea_admin1 7 .host, gameid := 7,
            taskids := [] } := by
  have h := C10_restart_host_is_caller cfg0 ackOk tok_bea_admin1 1 db_ended
    { creds := upgradeCredentials tok_bea_admin1 7 .host, gameid := 7, taskids := [] }
    ((restartGame cfg0 ackOk tok_bea_admin1 1 db_ended).2) rfl
  obtain ⟨⟨newGame, h1, h2⟩, -, -⟩ := h
  refine ⟨⟨newGame, ?_, ?_, ?_⟩, rfl⟩
  · simpa using h1
  · simpa using h2
  · rw [h2]
    decide

end GameCenter
